import Mathlib

/-!
# Verification of `go-hterrors` (package `hterrors`)

Shallow embedding of `errors.go` from the `snai.pe/go-hterrors` Go library.
Go strings are modelled as Lean `String` (both are sequences of Unicode
codepoints; Go byte-wise substring search and byte-wise lexicographic
comparison on valid UTF-8 agree with the codepoint-wise operations used
here, because UTF-8 is order-preserving and self-synchronizing).
Go `int` is modelled as `Int` (the status codes in play are far from the
64-bit overflow boundary).

External collaborators that are not part of this repository are modelled
abstractly:
* `mime.ParseMediaType` (Go standard library): its outcome is carried in the
  `Response` as `contentTypeParsed : Option String` — `some mtype` on
  success, `none` when the `Content-Type` header is absent (in which case
  `Header.Get` yields `""`, which `ParseMediaType` rejects) or unparseable.
* `github.com/k3a/html2text.HTML2Text` and `encoding/json` decoding into a
  `map[string]interface{}`: bundled in an `Externals` record; the JSON
  decode result is an association list of key to `%v`-rendered value (in
  map iteration order), or the `%v` rendering of the decode error.
* `net/http.StatusText` (Go standard library): reproduced verbatim below as
  `statusText`, since the rendering contract depends on its exact values.

The response body is a single-use stream; the embedding instruments every
operation with a `Trace` recording how many read operations were issued
against the body and whether the body was closed, so that the
read-at-most-once and close-on-error claims are statable.  A Go `nil`
pointer dereference (reading a `nil` body, or checking the status of a
`nil` response) is modelled by an outer `Option`: `none` is a panic.
-/

namespace Hterrors

/-- The `%v`/`%d` decimal rendering of a Go `int`, `fmt.Sprintf("%d", n)`. -/
def goItoa (n : Int) : String := toString n

/-- Go standard library `net/http.StatusText`: the canonical reason phrase
for the given HTTP status code, or the empty string if unknown. -/
def statusText : Int → String
  | 100 => "Continue"
  | 101 => "Switching Protocols"
  | 102 => "Processing"
  | 103 => "Early Hints"
  | 200 => "OK"
  | 201 => "Created"
  | 202 => "Accepted"
  | 203 => "Non-Authoritative Information"
  | 204 => "No Content"
  | 205 => "Reset Content"
  | 206 => "Partial Content"
  | 207 => "Multi-Status"
  | 208 => "Already Reported"
  | 226 => "IM Used"
  | 300 => "Multiple Choices"
  | 301 => "Moved Permanently"
  | 302 => "Found"
  | 303 => "See Other"
  | 304 => "Not Modified"
  | 305 => "Use Proxy"
  | 307 => "Temporary Redirect"
  | 308 => "Permanent Redirect"
  | 400 => "Bad Request"
  | 401 => "Unauthorized"
  | 402 => "Payment Required"
  | 403 => "Forbidden"
  | 404 => "Not Found"
  | 405 => "Method Not Allowed"
  | 406 => "Not Acceptable"
  | 407 => "Proxy Authentication Required"
  | 408 => "Request Timeout"
  | 409 => "Conflict"
  | 410 => "Gone"
  | 411 => "Length Required"
  | 412 => "Precondition Failed"
  | 413 => "Request Entity Too Large"
  | 414 => "Request URI Too Long"
  | 415 => "Unsupported Media Type"
  | 416 => "Requested Range Not Satisfiable"
  | 417 => "Expectation Failed"
  | 418 => "I\x27m a teapot"
  | 421 => "Misdirected Request"
  | 422 => "Unprocessable Entity"
  | 423 => "Locked"
  | 424 => "Failed Dependency"
  | 425 => "Too Early"
  | 426 => "Upgrade Required"
  | 428 => "Precondition Required"
  | 429 => "Too Many Requests"
  | 431 => "Request Header Fields Too Large"
  | 451 => "Unavailable For Legal Reasons"
  | 500 => "Internal Server Error"
  | 501 => "Not Implemented"
  | 502 => "Bad Gateway"
  | 503 => "Service Unavailable"
  | 504 => "Gateway Timeout"
  | 505 => "HTTP Version Not Supported"
  | 506 => "Variant Also Negotiates"
  | 507 => "Insufficient Storage"
  | 508 => "Loop Detected"
  | 510 => "Not Extended"
  | 511 => "Network Authentication Required"
  | _ => ""

/-- Go `strings.Contains s sub`: `sub` occurs as a contiguous substring of
`s`.  Byte-wise occurrence over UTF-8 coincides with codepoint-list infix
occurrence. -/
def strContains (s sub : String) : Bool := decide (sub.data <:+: s.data)

/-- `StatusError` represents a non-2xx HTTP status code, and the associated
message returned by the server, if any (`errors.go`). -/
structure StatusError where
  StatusCode : Int
  Message : String
deriving DecidableEq, Repr

/-- The `Error()` method of `*StatusError` (`errors.go`): renders the error
as text via the three-way switch on containment / emptiness of the
message. -/
def StatusError.Error (err : StatusError) : String :=
  let code := goItoa err.StatusCode
  let text := statusText err.StatusCode
  if strContains err.Message code && strContains err.Message text then
    err.Message
  else if err.Message = "" then
    code ++ " " ++ text
  else
    code ++ " " ++ text ++ ": " ++ err.Message

/-- The originating `http.Request`, reduced to the two fields the library
reads: `Method`, and the result of `URL.String()`. -/
structure Request where
  Method : String
  URL : String
deriving DecidableEq, Repr

/-- An `*http.Response`, reduced to the fields the library reads.
`contentTypeParsed` is the outcome of `mime.ParseMediaType` applied to
`Header.Get "Content-Type"` (`none` = header absent or unparseable; both
make `ParseMediaType` return an error).  `Body = none` models a `nil` body
stream, `Request = none` a `nil` originating request. -/
structure Response where
  StatusCode : Int
  contentTypeParsed : Option String
  Body : Option String
  Request : Option Request
deriving DecidableEq, Repr

/-- The two external body-processing libraries, modelled as oracles:
`html2text` is `github.com/k3a/html2text.HTML2Text`; `jsonDecode` is
`json.NewDecoder(body).Decode(&doc)` for `doc : map[string]interface{}`,
yielding either the decoded object as an association list of key to
`%v`-rendered value (in map iteration order) or the `%v` rendering of the
decode error. -/
structure Externals where
  html2text : String → String
  jsonDecode : String → Except String (List (String × String))

/-- An error value as returned by this library: either a transport-level
error handed in by the caller of `Check`, or the `*url.Error` built by
`CheckResponse` around a `*StatusError`. -/
inductive GoError where
  | transport (msg : String)
  | urlError (Op : String) (URL : String) (Err : StatusError)
deriving DecidableEq, Repr

/-- Instrumentation of the single-use body stream: how many read operations
(`io.Copy` / one `Decode` call) were issued against it, and whether
`Body.Close()` was called. -/
structure Trace where
  bodyReads : Nat
  bodyClosed : Bool
deriving DecidableEq, Repr

/-- Go `unicode.IsSpace`, the character class trimmed by
`strings.TrimSpace`. -/
def goIsSpace (c : Char) : Bool :=
  c = ' ' || c = '\t' || c = '\n' || c = '\x0b' || c = '\x0c' || c = '\r' ||
  c = '\x85' || c = '\xa0' || c.val = 0x1680 ||
  (0x2000 ≤ c.val && c.val ≤ 0x200a) || c.val = 0x2028 || c.val = 0x2029 ||
  c.val = 0x202f || c.val = 0x205f || c.val = 0x3000

/-- Go `strings.TrimSpace`: drop leading and trailing `unicode.IsSpace`
characters. -/
def trimSpace (s : String) : String :=
  String.mk (((s.data.dropWhile goIsSpace).reverse.dropWhile goIsSpace).reverse)

/-- The RE2 character class `\s` of the `space` pattern: `[\t\n\f\r ]`. -/
def isPerlSpace (c : Char) : Bool :=
  c = '\t' || c = '\n' || c = '\x0c' || c = '\r' || c = ' '

/-- Consume a maximal run of further matches of `\r?\n` (helper for the
`nlre` pattern `(\r?\n)+`). -/
def eatNlRun : List Char → List Char
  | '\n' :: rest => eatNlRun rest
  | '\r' :: '\n' :: rest => eatNlRun rest
  | cs => cs

theorem eatNlRun_length : ∀ cs : List Char, (eatNlRun cs).length ≤ cs.length := by
  intro cs
  induction cs using eatNlRun.induct with
  | case1 rest ih => simp only [eatNlRun, List.length_cons]; omega
  | case2 rest ih => simp only [eatNlRun, List.length_cons]; omega
  | case3 cs h1 h2 =>
    rw [eatNlRun.eq_def]
    split <;> simp_all

/-- One pass of the `nlre = (\r?\n)+` replacement, structurally recursive
on a fuel count so that the kernel can evaluate it (the fuel is sufficient
whenever it is at least the list's length, since every step consumes at
least one character). -/
def nlReplaceF : Nat → List Char → List Char
  | 0, cs => cs
  | _ + 1, [] => []
  | fuel + 1, '\n' :: rest => ':' :: ' ' :: nlReplaceF fuel (eatNlRun rest)
  | fuel + 1, '\r' :: '\n' :: rest => ':' :: ' ' :: nlReplaceF fuel (eatNlRun rest)
  | fuel + 1, c :: rest => c :: nlReplaceF fuel rest

/-- `nlre.ReplaceAllString(s, ": ")` for `nlre = (\r?\n)+`: every maximal
run of newlines (each optionally preceded by a carriage return) is replaced
by the literal `": "`; a carriage return not followed by a newline is left
alone. -/
def nlReplace (cs : List Char) : List Char := nlReplaceF cs.length cs

/-- Consume a maximal run of `\s` characters (helper for the `space`
pattern `\s\s+`). -/
def eatSpaces : List Char → List Char
  | [] => []
  | c :: rest => if isPerlSpace c then eatSpaces rest else c :: rest

theorem eatSpaces_length : ∀ cs : List Char, (eatSpaces cs).length ≤ cs.length := by
  intro cs
  induction cs with
  | nil => simp [eatSpaces]
  | cons c rest ih =>
    simp only [eatSpaces]
    split
    · simp only [List.length_cons]; omega
    · simp

/-- One pass of the `space = \s\s+` replacement, structurally recursive on
a fuel count (sufficient whenever it is at least the list's length). -/
def spaceReplaceF : Nat → List Char → List Char
  | 0, cs => cs
  | _ + 1, [] => []
  | _ + 1, [c] => [c]
  | fuel + 1, c :: d :: rest =>
    if isPerlSpace c && isPerlSpace d then ' ' :: spaceReplaceF fuel (eatSpaces rest)
    else c :: spaceReplaceF fuel (d :: rest)

/-- `space.ReplaceAllString(s, " ")` for `space = \s\s+`: every maximal run
of two or more `\s` characters is replaced by a single space; an isolated
`\s` character is kept as-is. -/
def spaceReplace (cs : List Char) : List Char := spaceReplaceF cs.length cs

/-- String-level wrapper of `nlReplace`. -/
def nlre_ReplaceAll (s : String) : String := String.mk (nlReplace s.data)

/-- String-level wrapper of `spaceReplace`. -/
def space_ReplaceAll (s : String) : String := String.mk (spaceReplace s.data)

/-- Go `strings.HasPrefix`: byte-prefix, equivalently codepoint-list prefix
on valid UTF-8. -/
def hasPrefix (s pre : String) : Bool := decide (pre.data <+: s.data)

/-- Byte-wise (equivalently, codepoint-wise) lexicographic comparison of
character lists: the order Go uses for `string` comparison. -/
def charListLe : List Char → List Char → Bool
  | [], _ => true
  | _ :: _, [] => false
  | a :: as, b :: bs =>
    if a < b then true
    else if b < a then false
    else charListLe as bs

/-- Go `a <= b` on strings (byte-wise lexicographic). -/
def strLe (a b : String) : Bool := charListLe a.data b.data

/-- The characters after the first `'+'`, if any (`strings.IndexRune(s, '+')`
followed by the byte slice `s[i+1:]`; slicing at the byte index of a `'+'`
is character-aligned). -/
def afterFirstPlus : List Char → Option (List Char)
  | [] => none
  | c :: cs => if c = '+' then some cs else afterFirstPlus cs

/-- The vendor media type rewrite of `extractMessage` (`errors.go`): a type
with prefix `application/vnd.` and a `'+'` becomes `"application/"`
followed by everything after the first `'+'`; otherwise it is unchanged. -/
def normalizeVendor (mtype : String) : String :=
  if hasPrefix mtype "application/vnd." then
    match afterFirstPlus mtype.data with
    | some rest => "application/" ++ String.mk rest
    | none => mtype
  else mtype

/-- `sort.Strings` on keys followed by rendering `"k: v"` pairs joined with
`", "` — the `application/json` success branch of `extractMessage`.
`sort.Strings` sorts ascending by Go's byte-wise `<` on strings, which on
valid UTF-8 agrees with the codepoint-wise `≤` used here. -/
def renderJsonDoc (doc : List (String × String)) : String :=
  let keys := List.insertionSort (fun a b : String => strLe a b = true) (doc.map Prod.fst)
  String.intercalate ", " (keys.map (fun k => k ++ ": " ++ ((doc.lookup k).getD "")))

/-- `extractMessage` (`errors.go`): dispatch on the normalized media type
and digest the body.  Returns the digest together with the number of body
read operations; `none` is the Go panic of reading a `nil` body. -/
def extractMessage (resp : Response) (ext : Externals) : Option (String × Nat) :=
  let mtype0 := match resp.contentTypeParsed with
    | none => "text/plain"
    | some m => m
  let mtype := normalizeVendor mtype0
  if mtype = "text/plain" then
    match resp.Body with
    | none => none
    | some b => some (b, 1)
  else if mtype = "text/html" then
    match resp.Body with
    | none => none
    | some b =>
      some (space_ReplaceAll (nlre_ReplaceAll (trimSpace (ext.html2text b))), 1)
  else if mtype = "application/json" then
    match resp.Body with
    | none => none
    | some b =>
      match ext.jsonDecode b with
      | .error e => some ("<invalid json in response body: " ++ e ++ ">", 1)
      | .ok doc => some (renderJsonDoc doc, 1)
  else
    some ("", 0)

/-- `DefaultResponseChecker` (`errors.go`): accept when the status is
2xx. -/
def DefaultResponseChecker (resp : Response) : Bool :=
  200 ≤ resp.StatusCode && resp.StatusCode < 300

/-- `CheckResponse` (`errors.go`): return `none` if the checker accepts;
otherwise extract the message, build a `*StatusError` and wrap it in a
`*url.Error` carrying the request method and URL (or sentinels when the
request is `nil`).  The body is read by extraction but never closed here;
the outer `Option` is the Go panic of extraction reading a `nil` body. -/
def CheckResponse (resp : Response) (checker : Response → Bool) (ext : Externals) :
    Option (Option GoError × Trace) :=
  if checker resp then some (none, ⟨0, false⟩)
  else
    match extractMessage resp ext with
    | none => none
    | some (msg, reads) =>
      let err : StatusError := ⟨resp.StatusCode, msg⟩
      match resp.Request with
      | none =>
        some (some (.urlError "<unknown method>" "<unknown request>" err), ⟨reads, false⟩)
      | some req =>
        some (some (.urlError req.Method req.URL err), ⟨reads, false⟩)

/-- `CheckStatus` (`errors.go`): `CheckResponse` with the default 2xx
checker. -/
def CheckStatus (resp : Response) (ext : Externals) : Option (Option GoError × Trace) :=
  CheckResponse resp DefaultResponseChecker ext

/-- The closure allocated by `CheckStatusOneOf` (`errors.go`): scan the
expected statuses for one equal to the response status. -/
def oneOfChecker (expectedStatuses : List Int) (resp : Response) : Bool :=
  expectedStatuses.any (fun status => status == resp.StatusCode)

/-- `CheckStatusOneOf` (`errors.go`): `CheckResponse` with the allow-list
checker. -/
def CheckStatusOneOf (resp : Response) (expectedStatuses : List Int) (ext : Externals) :
    Option (Option GoError × Trace) :=
  CheckResponse resp (oneOfChecker expectedStatuses) ext

/-- `Check` (`errors.go`): fold a `(resp, err)` pair into one check.  A
non-`nil` transport error short-circuits `CheckStatus`; on any resulting
error the body (when the response and its body are non-`nil`) is closed
and the returned response is `nil`; on no error the response is returned
unchanged.  Result: `(returned response, returned error, body trace)`;
the outer `Option` is a Go panic (`CheckStatus` on a `nil` response, or
extraction reading a `nil` body). -/
def Check (resp : Option Response) (e : Option GoError) (ext : Externals) :
    Option (Option Response × Option GoError × Trace) :=
  match e with
  | some er =>
    let closed := match resp with
      | some r => r.Body.isSome
      | none => false
    some (none, some er, ⟨0, closed⟩)
  | none =>
    match resp with
    | none => none
    | some r =>
      match CheckStatus r ext with
      | none => none
      | some (some er, tr) => some (none, some er, ⟨tr.bodyReads, r.Body.isSome⟩)
      | some (none, tr) => some (some r, none, tr)

end Hterrors

namespace Hterrors

/-- A trivial instantiation of the external oracles, used by concrete
examples and witnesses: `html2text` is the identity and JSON decoding
always fails. -/
def extId : Externals := ⟨fun s => s, fun _ => .error "unexpected EOF"⟩

/-- External oracle whose JSON decoding always yields the two-field object
from the test suite, `strings.NewReader` body
`\x7b"foo": "bar", "baz": "quux"\x7d`. -/
def extFooBaz : Externals :=
  ⟨fun s => s, fun _ => .ok [("foo", "bar"), ("baz", "quux")]⟩

example : renderJsonDoc [("foo", "bar"), ("baz", "quux")] = "baz: quux, foo: bar" := by decide
example : renderJsonDoc [] = "" := by decide
example : normalizeVendor "application/vnd.api+json" = "application/json" := by decide
example : normalizeVendor "application/vnd.a+b+c" = "application/b+c" := by decide
example : normalizeVendor "application/vnd.foo" = "application/vnd.foo" := by decide
example :
    space_ReplaceAll (nlre_ReplaceAll "a\n\nb  c") = "a: b c" := by decide
example :
    nlre_ReplaceAll (space_ReplaceAll "a\n\nb  c") = "a b c" := by decide
example : trimSpace "  hi\t " = "hi" := by decide
example :
    extractMessage ⟨500, some "text/html", some " x\n\ny  z ", none⟩ extId =
      some ("x: y z", 1) := by decide
example :
    extractMessage ⟨500, some "application/json", some "not json", none⟩ extId =
      some ("<invalid json in response body: unexpected EOF>", 1) := by decide
example :
    Check (some ⟨500, some "application/json",
        some "\x7b\"foo\": \"bar\", \"baz\": \"quux\"\x7d", some ⟨"GET", ""⟩⟩) none extFooBaz =
      some (none, some (.urlError "GET" "" ⟨500, "baz: quux, foo: bar"⟩), ⟨1, true⟩) := by
  decide

example : (StatusError.mk 500 "").Error = "500 Internal Server Error" := by decide
example : (StatusError.mk 400 "bad field").Error = "400 Bad Request: bad field" := by decide
example : (StatusError.mk 599 "").Error = "599 " := by decide
example : (StatusError.mk 599 "x599y").Error = "x599y" := by decide

/-! ## Supporting lemmas -/

theorem toDigitsCore_length_le (b : Nat) :
    ∀ (f n : Nat) (acc : List Char), acc.length ≤ (Nat.toDigitsCore b f n acc).length := by
  intro f
  induction f with
  | zero => intro n acc; simp [Nat.toDigitsCore]
  | succ f ih =>
    intro n acc
    simp only [Nat.toDigitsCore]
    split
    · simp
    · exact le_trans (by simp) (ih (n / b) (Nat.digitChar (n % b) :: acc))

theorem toDigits_ne_nil (n : Nat) : Nat.toDigits 10 n ≠ [] := by
  unfold Nat.toDigits
  simp only [Nat.toDigitsCore]
  split
  · simp
  · intro hc
    have h := toDigitsCore_length_le 10 n (n / 10) [Nat.digitChar (n % 10)]
    rw [hc] at h
    simp at h

/-- The decimal rendering of an integer is never the empty string. -/
theorem goItoa_data_ne_nil (n : Int) : (goItoa n).data ≠ [] := by
  cases n with
  | ofNat m =>
    show (Nat.repr m).data ≠ []
    unfold Nat.repr
    exact toDigits_ne_nil m
  | negSucc m =>
    show ("-" ++ Nat.repr (m + 1)).data ≠ []
    simp [String.data_append]

/-- The empty string occurs as a substring of every string. -/
theorem strContains_empty (s : String) : strContains s "" = true := by
  unfold strContains
  exact decide_eq_true List.nil_infix

end Hterrors

namespace Hterrors

/-! ## Claim theorems -/

/-- C1: rendering a `StatusError` as text follows exactly the three-way
rule — the message unchanged when it contains both the decimal code and
the standard reason phrase as substrings, `"<code> <text>"` when the
message is empty, and `"<code> <text>: <message>"` otherwise; in
particular status 500 with empty message renders as
`"500 Internal Server Error"` and status 400 with message `"bad field"`
renders as `"400 Bad Request: bad field"`. -/
theorem C1_statusError_render (er : StatusError) :
    er.Error =
      (if (goItoa er.StatusCode).data <:+: er.Message.data ∧
          (statusText er.StatusCode).data <:+: er.Message.data then
        er.Message
      else if er.Message = "" then
        goItoa er.StatusCode ++ " " ++ statusText er.StatusCode
      else
        goItoa er.StatusCode ++ " " ++ statusText er.StatusCode ++ ": " ++ er.Message) ∧
    (StatusError.mk 500 "").Error = "500 Internal Server Error" ∧
    (StatusError.mk 400 "bad field").Error = "400 Bad Request: bad field" ∧
    (StatusError.mk 404 "404 page Not Found here").Error = "404 page Not Found here" := by
  refine ⟨?_, by decide, by decide, by decide⟩
  unfold StatusError.Error strContains
  by_cases h1 : (goItoa er.StatusCode).data <:+: er.Message.data <;>
    by_cases h2 : (statusText er.StatusCode).data <:+: er.Message.data <;>
    simp [h1, h2]

/-- C10: for a `StatusError` whose status code has no standard reason
phrase, the rendering returns the message unchanged whenever the message
contains the decimal status code (containment of the empty reason phrase
holds vacuously), and an empty message renders as the decimal code
followed by a single trailing space, e.g. `"599 "` for code 599. -/
theorem C10_unknown_status_render (er : StatusError)
    (h : statusText er.StatusCode = "") :
    (strContains er.Message (goItoa er.StatusCode) = true → er.Error = er.Message) ∧
    (er.Message = "" → er.Error = goItoa er.StatusCode ++ " ") ∧
    (StatusError.mk 599 "").Error = "599 " := by
  refine ⟨?_, ?_, by decide⟩
  · intro hc
    have he : strContains er.Message (statusText er.StatusCode) = true := by
      rw [h]; exact strContains_empty _
    unfold StatusError.Error
    simp [hc, he]
  · intro hm
    have hcode : strContains "" (goItoa er.StatusCode) = false := by
      unfold strContains
      apply decide_eq_false
      rw [List.infix_nil]
      exact goItoa_data_ne_nil er.StatusCode
    unfold StatusError.Error
    rw [hm, h]
    simp [hcode]

/-- Case analysis of one comparison step of `charListLe`. -/
theorem charListLe_cons_iff (a b : Char) (as bs : List Char) :
    charListLe (a :: as) (b :: bs) = true ↔ a < b ∨ (a = b ∧ charListLe as bs = true) := by
  by_cases hab : a < b
  · simp [charListLe, hab]
  · by_cases hba : b < a
    · have hne : a ≠ b := by rintro rfl; exact lt_irrefl _ hba
      simp [charListLe, hab, hba, hne]
    · have heq : a = b := le_antisymm (not_lt.mp hba) (not_lt.mp hab)
      simp [charListLe, hab, hba, heq]

/-- `charListLe` is total. -/
theorem charListLe_total : ∀ as bs : List Char,
    charListLe as bs = true ∨ charListLe bs as = true := by
  intro as
  induction as with
  | nil => intro bs; left; rfl
  | cons a as ih =>
    intro bs
    cases bs with
    | nil => right; rfl
    | cons b bs =>
      by_cases hab : a < b
      · left; simp [charListLe, hab]
      · by_cases hba : b < a
        · right; simp [charListLe, hba]
        · rcases ih bs with h | h
          · left; simp [charListLe, hab, hba, h]
          · right
            have heq : b = a := le_antisymm (not_lt.mp hab) (not_lt.mp hba)
            simp [charListLe, hab, hba, heq, h]

/-- `charListLe` is transitive. -/
theorem charListLe_trans : ∀ as bs cs : List Char,
    charListLe as bs = true → charListLe bs cs = true → charListLe as cs = true := by
  intro as
  induction as with
  | nil => intro bs cs _ _; rfl
  | cons a as ih =>
    intro bs cs h1 h2
    cases bs with
    | nil => exact absurd h1 (by simp [charListLe])
    | cons b bs =>
      cases cs with
      | nil => exact absurd h2 (by simp [charListLe])
      | cons c cs =>
        rw [charListLe_cons_iff] at h1 h2 ⊢
        rcases h1 with h1 | ⟨rfl, h1⟩
        · rcases h2 with h2 | ⟨rfl, h2⟩
          · exact Or.inl (lt_trans h1 h2)
          · exact Or.inl h1
        · rcases h2 with h2 | ⟨rfl, h2⟩
          · exact Or.inl h2
          · exact Or.inr ⟨rfl, ih bs cs h1 h2⟩

theorem strLe_total (a b : String) : strLe a b = true ∨ strLe b a = true :=
  charListLe_total a.data b.data

theorem strLe_trans (a b c : String) :
    strLe a b = true → strLe b c = true → strLe a c = true :=
  charListLe_trans a.data b.data c.data

/-- The characters after the first `'+'` are exactly the tail of the
drop-until-`'+'` suffix. -/
theorem afterFirstPlus_eq : ∀ cs : List Char,
    afterFirstPlus cs =
      if '+' ∈ cs then some ((cs.dropWhile (fun c => c ≠ '+')).tail) else none := by
  intro cs
  induction cs with
  | nil => rfl
  | cons c cs ih =>
    by_cases h : c = '+'
    · subst h
      simp [afterFirstPlus, List.dropWhile]
    · simp only [afterFirstPlus, h, if_false, ih, List.dropWhile, List.mem_cons]
      have hne : ¬ ('+' = c) := fun hc => h hc.symm
      simp [h, hne]

/-- Reads of the body stream issued by `extractMessage` never exceed
one. -/
theorem extractMessage_reads_le_one (resp : Response) (ext : Externals)
    (msg : String) (n : Nat) (h : extractMessage resp ext = some (msg, n)) :
    n ≤ 1 := by
  obtain ⟨code, ct, body, req⟩ := resp
  cases ct <;> cases body
  all_goals simp only [extractMessage] at h
  all_goals repeat' split at h
  all_goals simp_all
  all_goals omega

/-- C8: a response whose `Content-Type` is absent or unparseable is
handled as `text/plain`, and the `text/plain` branch returns the body
verbatim, byte-for-byte (an empty body yields the empty string); in
either case extraction does not fail. -/
theorem C8_plain_verbatim (code : Int) (req : Option Request) (b : String)
    (ext : Externals) :
    extractMessage ⟨code, none, some b, req⟩ ext = some (b, 1) ∧
    extractMessage ⟨code, some "text/plain", some b, req⟩ ext = some (b, 1) ∧
    extractMessage ⟨code, none, some "", req⟩ ext = some ("", 1) := by
  exact ⟨rfl, rfl, rfl⟩

/-- C4: for an `application/json` response whose body decodes as a JSON
object, the extracted message renders the entries as `"key: value"`, in
lexicographically ascending key order, joined with `", "`; the body
`\x7b"foo": "bar", "baz": "quux"\x7d` yields exactly
`"baz: quux, foo: bar"` and the empty object yields the empty string. -/
theorem C4_json_render (code : Int) (req : Option Request) (b : String)
    (doc : List (String × String)) (ext : Externals)
    (hjd : ext.jsonDecode b = .ok doc) :
    (∃ ks : List String, ks.Perm (doc.map Prod.fst) ∧
        ks.Sorted (fun a b => strLe a b = true) ∧
        extractMessage ⟨code, some "application/json", some b, req⟩ ext =
          some (String.intercalate ", "
            (ks.map (fun k => k ++ ": " ++ ((doc.lookup k).getD ""))), 1)) ∧
    renderJsonDoc [("foo", "bar"), ("baz", "quux")] = "baz: quux, foo: bar" ∧
    renderJsonDoc [] = "" := by
  haveI htot : IsTotal String (fun a b => strLe a b = true) := ⟨strLe_total⟩
  haveI htr : IsTrans String (fun a b => strLe a b = true) := ⟨strLe_trans⟩
  refine ⟨⟨List.insertionSort (fun a b => strLe a b = true) (doc.map Prod.fst),
      List.perm_insertionSort _ _, List.sorted_insertionSort _ _, ?_⟩, by decide, rfl⟩
  have hstep : extractMessage ⟨code, some "application/json", some b, req⟩ ext =
      (match ext.jsonDecode b with
       | .error e => some ("<invalid json in response body: " ++ e ++ ">", 1)
       | .ok d => some (renderJsonDoc d, 1)) := rfl
  rw [hstep, hjd]
  rfl

/-- C5: for an `application/json` response whose body fails to decode,
extraction does not fail but returns the diagnostic
`"<invalid json in response body: ERROR>"` (which starts with
`"<invalid json in response body:"`), and a rejected response still
produces the ordinary status-rejection error (a `url.Error` wrapping a
`StatusError`), not a distinct parsing-failure error kind. -/
theorem C5_json_decode_failure (code : Int) (req : Option Request) (b e : String)
    (ext : Externals) (checker : Response → Bool)
    (hjd : ext.jsonDecode b = .error e)
    (hrej : checker ⟨code, some "application/json", some b, req⟩ = false) :
    extractMessage ⟨code, some "application/json", some b, req⟩ ext =
      some ("<invalid json in response body: " ++ e ++ ">", 1) ∧
    hasPrefix ("<invalid json in response body: " ++ e ++ ">")
      "<invalid json in response body:" = true ∧
    (∃ Op URL : String,
      CheckResponse ⟨code, some "application/json", some b, req⟩ checker ext =
        some (some (.urlError Op URL
          ⟨code, "<invalid json in response body: " ++ e ++ ">"⟩), ⟨1, false⟩)) := by
  have hstep : extractMessage ⟨code, some "application/json", some b, req⟩ ext =
      (match ext.jsonDecode b with
       | .error e => some ("<invalid json in response body: " ++ e ++ ">", 1)
       | .ok d => some (renderJsonDoc d, 1)) := rfl
  have hex : extractMessage ⟨code, some "application/json", some b, req⟩ ext =
      some ("<invalid json in response body: " ++ e ++ ">", 1) := by
    rw [hstep, hjd]
  refine ⟨hex, ?_, ?_⟩
  · apply decide_eq_true
    have h1 : "<invalid json in response body:".data <+:
        "<invalid json in response body: ".data := by decide
    have h2 : "<invalid json in response body: ".data <+:
        ("<invalid json in response body: " ++ e ++ ">").data := by
      rw [String.data_append, String.data_append]
      exact (List.prefix_append _ _).trans (List.prefix_append _ _)
    exact h1.trans h2
  · cases req with
    | none =>
      refine ⟨"<unknown method>", "<unknown request>", ?_⟩
      simp [CheckResponse, hrej, hex]
    | some rq =>
      refine ⟨rq.Method, rq.URL, ?_⟩
      simp [CheckResponse, hrej, hex]

/-- C6: for a `text/html` response, the extracted message is the body
converted to plain text, trimmed of leading/trailing whitespace, with
every run of one-or-more newlines then replaced by the literal `": "`,
and every run of two-or-more whitespace characters then replaced by a
single space — newline collapsing strictly before whitespace collapsing
(the two orders disagree on `"a\n\nb  c"`). -/
theorem C6_html_pipeline (code : Int) (req : Option Request) (b : String)
    (ext : Externals) :
    extractMessage ⟨code, some "text/html", some b, req⟩ ext =
      some (space_ReplaceAll (nlre_ReplaceAll (trimSpace (ext.html2text b))), 1) ∧
    space_ReplaceAll (nlre_ReplaceAll "a\n\nb  c") = "a: b c" ∧
    nlre_ReplaceAll (space_ReplaceAll "a\n\nb  c") = "a b c" ∧
    trimSpace " \t x\n\ny  z \n" = "x\n\ny  z" ∧
    space_ReplaceAll (nlre_ReplaceAll (trimSpace " x\r\n\ny  z ")) = "x: y z" := by
  exact ⟨rfl, by decide, by decide, by decide, by decide⟩

/-- C7: a parsed media type beginning with `application/vnd.` is rewritten
to `"application/"` followed by everything after the first `'+'`, and is
left unchanged when no `'+'` is present (falling through to the default
branch of extraction); `application/vnd.api+json` becomes
`application/json`, and a type with several `'+'` is cut at the first
one. -/
theorem C7_vendor_rewrite :
    (∀ s : String, hasPrefix s "application/vnd." = true →
      ('+' ∈ s.data →
        normalizeVendor s =
          "application/" ++ String.mk ((s.data.dropWhile (fun c => c ≠ '+')).tail)) ∧
      ('+' ∉ s.data → normalizeVendor s = s)) ∧
    normalizeVendor "application/vnd.api+json" = "application/json" ∧
    normalizeVendor "application/vnd.a+b+c" = "application/b+c" ∧
    normalizeVendor "application/vnd.foo" = "application/vnd.foo" ∧
    (∀ (code : Int) (body : Option String) (req : Option Request) (ext : Externals),
      extractMessage ⟨code, some "application/vnd.foo", body, req⟩ ext =
        some ("", 0)) := by
  refine ⟨?_, by decide, by decide, by decide, fun code body req ext => rfl⟩
  intro s hpre
  constructor
  · intro hmem
    simp [normalizeVendor, hpre, afterFirstPlus_eq, hmem]
  · intro hmem
    simp [normalizeVendor, hpre, afterFirstPlus_eq, hmem]

/-- The allow-list checker accepts exactly when the status code is a member
of the expected list. -/
theorem oneOfChecker_iff (codes : List Int) (resp : Response) :
    oneOfChecker codes resp = true ↔ resp.StatusCode ∈ codes := by
  unfold oneOfChecker
  simp [List.any_eq_true]

/-- `CheckResponse` yields no error exactly when the checker accepts. -/
theorem checkResponse_accept_iff (resp : Response) (checker : Response → Bool)
    (ext : Externals) :
    (∃ tr, CheckResponse resp checker ext = some (none, tr)) ↔ checker resp = true := by
  constructor
  · rintro ⟨tr, h⟩
    by_contra hc
    have hc' : checker resp = false := by simpa using hc
    simp only [CheckResponse, hc', Bool.false_eq_true, if_false] at h
    split at h
    · exact absurd h (by simp)
    · split at h <;> simp at h
  · intro h
    exact ⟨⟨0, false⟩, by simp [CheckResponse, h]⟩

/-- C9: the allow-list classifier built by `CheckStatusOneOf` accepts a
response exactly when its status code equals one of the supplied codes; an
empty collection rejects every status, and the outcome depends only on the
membership of the supplied codes, not their order or duplication. -/
theorem C9_oneof_allowlist (resp : Response) (codes codes2 : List Int)
    (ext : Externals) :
    ((∃ tr, CheckStatusOneOf resp codes ext = some (none, tr)) ↔
      resp.StatusCode ∈ codes) ∧
    (¬ ∃ tr, CheckStatusOneOf resp [] ext = some (none, tr)) ∧
    ((∀ c : Int, c ∈ codes ↔ c ∈ codes2) →
      CheckStatusOneOf resp codes ext = CheckStatusOneOf resp codes2 ext) := by
  have hiff : ∀ cs : List Int,
      (∃ tr, CheckStatusOneOf resp cs ext = some (none, tr)) ↔
        resp.StatusCode ∈ cs := by
    intro cs
    exact (checkResponse_accept_iff _ _ _).trans (oneOfChecker_iff _ _)
  refine ⟨hiff codes, ?_, ?_⟩
  · rw [hiff]; simp
  · intro h
    have hins : (oneOfChecker codes resp = true) ↔ (oneOfChecker codes2 resp = true) := by
      rw [oneOfChecker_iff, oneOfChecker_iff]; exact h _
    have hb : oneOfChecker codes resp = oneOfChecker codes2 resp := by
      cases hx : oneOfChecker codes resp <;> cases hy : oneOfChecker codes2 resp <;>
        simp_all
    unfold CheckStatusOneOf CheckResponse
    rw [hb]

/-- C2: the combined `Check` returns a non-null transport error unchanged
without running the status check or reading the body (closing the body when
one is available); otherwise the default status check decides, the body is
closed and the response nulled whenever the resulting error is non-null,
and the response is returned unchanged when it is null. -/
theorem C2_combined_check :
    (∀ (resp : Option Response) (er : GoError) (ext : Externals),
      Check resp (some er) ext =
        some (none, some er,
          ⟨0, match resp with | some r => r.Body.isSome | none => false⟩)) ∧
    (∀ (r : Response) (ext : Externals) (er : GoError) (tr : Trace),
      CheckStatus r ext = some (some er, tr) →
      Check (some r) none ext = some (none, some er, ⟨tr.bodyReads, r.Body.isSome⟩)) ∧
    (∀ (r : Response) (ext : Externals) (tr : Trace),
      CheckStatus r ext = some (none, tr) →
      Check (some r) none ext = some (some r, none, tr)) := by
  refine ⟨fun resp er ext => rfl, fun r ext er tr h => ?_, fun r ext tr h => ?_⟩
  · simp [Check, h]
  · simp [Check, h]

/-- Response used to refute C3: status 500, `text/plain`, body `"oops"`,
no originating request. -/
def respC3 : Response := ⟨500, some "text/plain", some "oops", none⟩

/-- C3, counterexample: `CheckResponse` returns its non-null error with the
body left unclosed (`bodyClosed = false`) — the close happens only in the
combined `Check`, contradicting the claim that `CheckResponse` closes the
body stream before returning its error. -/
theorem C3_counterexample :
    CheckResponse respC3 DefaultResponseChecker extId =
      some (some (.urlError "<unknown method>" "<unknown request>" ⟨500, "oops"⟩),
        ⟨1, false⟩) := by
  decide

/-- C3, amended: on a rejected response `CheckResponse` reads the body at
most once (via the extractor) and never closes it; closing on the error
path is performed by the combined `Check` wrapper, which closes the body
whenever it returns a non-null error and the body is non-null. -/
theorem C3_amended_close_contract :
    (∀ (resp : Response) (checker : Response → Bool) (ext : Externals)
        (e : Option GoError) (tr : Trace),
      CheckResponse resp checker ext = some (e, tr) →
      tr.bodyReads ≤ 1 ∧ tr.bodyClosed = false) ∧
    (∀ (r : Response) (ext : Externals) (er : GoError) (rr : Option Response)
        (tr : Trace),
      Check (some r) none ext = some (rr, some er, tr) → r.Body.isSome = true →
      tr.bodyClosed = true) := by
  constructor
  · intro resp checker ext e tr h
    unfold CheckResponse at h
    split at h
    · simp only [Option.some.injEq, Prod.mk.injEq] at h
      obtain ⟨h1, h2⟩ := h
      subst h2
      exact ⟨by simp, rfl⟩
    · split at h
      · exact absurd h (by simp)
      · next msg reads heq =>
        have hr : reads ≤ 1 := extractMessage_reads_le_one resp ext msg reads heq
        split at h <;>
          (simp only [Option.some.injEq, Prod.mk.injEq] at h
           obtain ⟨h1, h2⟩ := h
           subst h2
           exact ⟨hr, rfl⟩)
  · intro r ext er rr tr h hbody
    simp only [Check] at h
    split at h
    · exact absurd h (by simp)
    · simp only [Option.some.injEq, Prod.mk.injEq] at h
      obtain ⟨h1, h2, h3⟩ := h
      subst h3
      exact hbody
    · simp only [Option.some.injEq, Prod.mk.injEq] at h
      obtain ⟨h1, h2, h3⟩ := h
      exact absurd h2 (by simp)

/-! ## Witnesses -/

/-- Witness for C10: status 599 has no reason phrase, and the two rendering
cases evaluate as claimed. -/
theorem C10_unknown_status_render_witness :
    statusText 599 = "" ∧ (StatusError.mk 599 "x599y").Error = "x599y" :=
  ⟨by decide, (C10_unknown_status_render ⟨599, "x599y"⟩ (by decide)).1 (by decide)⟩

/-- Witness for C4 on the test-suite body with decoded object
`[("foo", "bar"), ("baz", "quux")]`. -/
theorem C4_json_render_witness :
    (∃ ks : List String,
        ks.Perm (([("foo", "bar"), ("baz", "quux")] :
            List (String × String)).map Prod.fst) ∧
        ks.Sorted (fun a b => strLe a b = true) ∧
        extractMessage ⟨500, some "application/json",
            some "\x7b\"foo\": \"bar\", \"baz\": \"quux\"\x7d",
            some ⟨"GET", "http://x/y"⟩⟩ extFooBaz =
          some (String.intercalate ", "
            (ks.map (fun k =>
              k ++ ": " ++
                ((([("foo", "bar"), ("baz", "quux")] :
                    List (String × String)).lookup k).getD ""))), 1)) ∧
    renderJsonDoc [("foo", "bar"), ("baz", "quux")] = "baz: quux, foo: bar" ∧
    renderJsonDoc [] = "" :=
  C4_json_render 500 (some ⟨"GET", "http://x/y"⟩)
    "\x7b\"foo\": \"bar\", \"baz\": \"quux\"\x7d" [("foo", "bar"), ("baz", "quux")]
    extFooBaz rfl

/-- Witness for C5 on an undecodable body, with the default 2xx checker
rejecting status 500. -/
theorem C5_json_decode_failure_witness :
    extractMessage ⟨500, some "application/json", some "not json", none⟩ extId =
      some ("<invalid json in response body: " ++ "unexpected EOF" ++ ">", 1) ∧
    hasPrefix ("<invalid json in response body: " ++ "unexpected EOF" ++ ">")
      "<invalid json in response body:" = true ∧
    (∃ Op URL : String,
      CheckResponse ⟨500, some "application/json", some "not json", none⟩
          DefaultResponseChecker extId =
        some (some (.urlError Op URL
          ⟨500, "<invalid json in response body: " ++ "unexpected EOF" ++ ">"⟩),
          ⟨1, false⟩)) :=
  C5_json_decode_failure 500 none "not json" "unexpected EOF" extId
    DefaultResponseChecker rfl rfl

/-- Witness for C7 at `application/vnd.api+json`. -/
theorem C7_vendor_rewrite_witness :
    normalizeVendor "application/vnd.api+json" =
      "application/" ++
        String.mk (("application/vnd.api+json".data.dropWhile
          (fun c => c ≠ '+')).tail) :=
  (C7_vendor_rewrite.1 "application/vnd.api+json" (by decide)).1 (by decide)

/-- Witness for C9: the decision for status 404 is the same for the
allow-lists `[404, 200]` and `[200, 404, 404]`. -/
theorem C9_oneof_allowlist_witness :
    CheckStatusOneOf ⟨404, some "text/plain", some "nope", none⟩ [404, 200] extId =
      CheckStatusOneOf ⟨404, some "text/plain", some "nope", none⟩
        [200, 404, 404] extId :=
  (C9_oneof_allowlist ⟨404, some "text/plain", some "nope", none⟩ [404, 200]
    [200, 404, 404] extId).2.2 (by intro c; simp; tauto)

/-- Witness for C2 on a rejected `text/plain` response: the error is
returned with a null response and the body is closed. -/
theorem C2_combined_check_witness :
    Check (some ⟨500, some "text/plain", some "oops", some ⟨"GET", "u"⟩⟩) none extId =
      some (none, some (.urlError "GET" "u" ⟨500, "oops"⟩), ⟨1, true⟩) :=
  C2_combined_check.2.1 ⟨500, some "text/plain", some "oops", some ⟨"GET", "u"⟩⟩
    extId (.urlError "GET" "u" ⟨500, "oops"⟩) ⟨1, false⟩ (by decide)

/-- Witness for the amended C3 at the same rejected response used by the
counterexample. -/
theorem C3_amended_close_contract_witness :
    (1 : Nat) ≤ 1 ∧ false = false :=
  C3_amended_close_contract.1 respC3 DefaultResponseChecker extId
    (some (.urlError "<unknown method>" "<unknown request>" ⟨500, "oops"⟩))
    ⟨1, false⟩ (by decide)

end Hterrors
